import Mathlib

/-!
Shallow embedding of the data-access core of the jobly repository:
the partial-update builder (helpers/sql.js), the filter builders and query
assembly inside Company.findAll (models/company.js), Job.findAll
(models/job.js), the update-by-key assembly of Company.update, Job.update and
User.update, and the row aggregator inside User.findAll (models/user.js).

JavaScript objects whose keys carry insertion order are embedded as ordered
association lists; JavaScript runtime values that may flow through the
builders are embedded as the inductive type JsVal, with the undefined and
null values merged (both are falsy and neither occurs as a live filter or
update value).  Thrown errors are embedded as an Except channel with the
error classes of expressError.js that the modelled code can raise.
-/

/-- Embedding of the JavaScript values reaching the data-access core. -/
inductive JsVal where
  | str : String → JsVal
  | num : Int → JsVal
  | bool : Bool → JsVal
  | null : JsVal
deriving DecidableEq

/-- JavaScript truthiness for the embedded values: empty string, zero,
false and null are falsy, everything else is truthy. -/
def JsVal.truthy : JsVal → Bool
  | .str s => s ≠ ""
  | .num n => n ≠ 0
  | .bool b => b
  | .null => false

/-- The error classes of expressError.js that the modelled code can throw. -/
inductive JError where
  | badRequest : String → JError
  | notFound : String → JError
deriving DecidableEq

/-- State machine scanning the positional placeholders of a SQL fragment:
the state holds the number being accumulated after a dollar sign, if any. -/
def phAux : Option Nat → List Char → List Nat
  | none, [] => []
  | some n, [] => [n]
  | none, c :: rest => if c = '$' then phAux (some 0) rest else phAux none rest
  | some n, c :: rest =>
      if c.isDigit then phAux (some (10 * n + (c.toNat - 48))) rest
      else if c = '$' then n :: phAux (some 0) rest
      else n :: phAux none rest

/-- All positional placeholder numbers occurring in a fragment, in order:
placeholders of the string "a=$1 AND b<=$12" are the list containing 1
and 12. -/
def placeholders (s : String) : List Nat :=
  phAux none s.toList

/-- Boolean prefix test on character lists. -/
def listIsPre : List Char → List Char → Bool
  | [], _ => true
  | _ :: _, [] => false
  | a :: as, b :: bs => a = b && listIsPre as bs

/-- Boolean substring test on character lists. -/
def listHasSub (pat : List Char) : List Char → Bool
  | [] => listIsPre pat []
  | c :: rest => listIsPre pat (c :: rest) || listHasSub pat rest

/-- Boolean substring test on strings, evaluable by the kernel. -/
def strHasSub (s pat : String) : Bool :=
  listHasSub pat.toList s.toList

/-- Lookup in an association-list embedding of a JavaScript object used as a
string-to-string map: the bracket access jsToSql[colName]. -/
def lookupStr (m : List (String × String)) (k : String) : Option String :=
  (m.find? (fun p => p.1 == k)).map (·.2)

/-- Embedding of the column-resolution expression of helpers/sql.js line 57,
jsToSql[colName] || colName: the or-else operator picks colName whenever the
looked-up value is absent or falsy (the empty string). -/
def resolveCol (jsToSql : List (String × String)) (colName : String) : String :=
  match lookupStr jsToSql colName with
  | some s => if s = "" then colName else s
  | none => colName

/-- Embedding of the local array cols of sqlForPartialUpdate
(helpers/sql.js lines 56 to 58): keys.map over (colName, idx). -/
def sqlForPartialUpdateCols (keys : List String) (jsToSql : List (String × String)) :
    List String :=
  keys.enum.map (fun p => "\"" ++ resolveCol jsToSql p.2 ++ "\"=$" ++ toString (p.1 + 1))

/-- Embedding of sqlForPartialUpdate of helpers/sql.js: on an empty update it
throws BadRequestError "No data"; otherwise it returns the SET fragment
(the cols joined with comma-space) and the values of the update object. -/
def sqlForPartialUpdate (dataToUpdate : List (String × JsVal))
    (jsToSql : List (String × String)) : Except JError (String × List JsVal) :=
  let keys := dataToUpdate.map (·.1)
  if keys.length = 0 then .error (.badRequest "No data")
  else
    .ok (String.intercalate ", " (sqlForPartialUpdateCols keys jsToSql),
         dataToUpdate.map (·.2))

/-- Embedding of one iteration of the Company.findAll filter loop
(models/company.js lines 94 to 111): the three independent key tests are
mutually exclusive on distinct string literals, so at most one condition is
pushed per entry; idx is the position of the key in filterKeys. -/
def companyCondFor (idx : Nat) (key : String) : Option String :=
  if key = "nameLike" then some ("name ILIKE $" ++ toString (idx + 1))
  else if key = "minEmployees" then some ("num_employees>=$" ++ toString (idx + 1))
  else if key = "maxEmployees" then some ("num_employees<=$" ++ toString (idx + 1))
  else none

/-- Embedding of the local array sqlWhereCondArr of Company.findAll after the
loop over filterKeys.entries(). -/
def companyBuildConds (filterKeys : List String) : List String :=
  filterKeys.enum.filterMap (fun p => companyCondFor p.1 p.2)

/-- Fixed prefix of the Company.findAll query text, up to the spot where
sqlNumEmployeesSelectArg is interpolated. -/
def companySelectPre : String :=
  "\n      SELECT handle,\n        name,\n        description,\n        "

/-- Fixed middle of the Company.findAll query text, from after
sqlNumEmployeesSelectArg to the spot where sqlWhereCondStr is interpolated. -/
def companySelectPost : String :=
  "\n        logo_url AS \"logoUrl\"\n    FROM companies\n    "

/-- Fixed tail of the Company.findAll query text: the ORDER BY clause. -/
def companyOrderBy : String :=
  "\n    ORDER BY name"

/-- Embedding of the Company.findAll template literal (models/company.js
lines 143 to 151) as a function of its two interpolated variables. -/
def companyQueryTemplate (sqlNumEmployeesSelectArg sqlWhereCondStr : String) : String :=
  companySelectPre ++ sqlNumEmployeesSelectArg ++ companySelectPost
    ++ sqlWhereCondStr ++ companyOrderBy

/-- Embedding of the query assembly of Company.findAll: the returned pair is
the query text and the parameter values handed to db.query.  An empty filter
object (either no filters entry or a filters entry with zero keys) skips the
whole filter block, leaving the WHERE string empty and passing no values. -/
def companyFindAll (filters : List (String × JsVal)) : String × List JsVal :=
  if filters.isEmpty then (companyQueryTemplate "" "", [])
  else
    let filterKeys := filters.map (·.1)
    let filterVals := filters.map (·.2)
    let sqlWhereCondStr :=
      "WHERE " ++ String.intercalate " AND " (companyBuildConds filterKeys)
    let sqlNumEmployeesSelectArg :=
      if filterKeys.contains "minEmployees" || filterKeys.contains "maxEmployees"
      then "num_employees AS \"numEmployees\"," else ""
    (companyQueryTemplate sqlNumEmployeesSelectArg sqlWhereCondStr, filterVals)

/-- Embedding of one iteration of the Job.findAll filter loop
(models/job.js lines 106 to 144): the pair holds the condition pushed to
sqlWhereCondArr, if any, and the value pushed to the values array, if any.
The hasEquity entry pushes the literal predicate only when its value is
truthy and never pushes a value; idx is the position of the key in
filterKeys. -/
def jobCondFor (idx : Nat) (key : String) (v : JsVal) : Option String × Option JsVal :=
  if key = "titleLike" then (some ("title ILIKE $" ++ toString (idx + 1)), some v)
  else if key = "minSalary" then (some ("salary>=$" ++ toString (idx + 1)), some v)
  else if key = "hasEquity" then
    (if v.truthy then some "equity>\x270\x27" else none, none)
  else (none, none)

/-- Embedding of the loop of Job.findAll producing sqlWhereCondArr and the
values array: each entry reads its value at valIdx = filterKeys.indexOf key,
exactly as the source does. -/
def jobBuildConds (filters : List (String × JsVal)) : List String × List JsVal :=
  let filterKeys := filters.map (·.1)
  let filterVals := filters.map (·.2)
  let steps := filterKeys.enum.map
    (fun p => jobCondFor p.1 p.2 (filterVals.getD (filterKeys.indexOf p.2) JsVal.null))
  (steps.filterMap (·.1), steps.filterMap (·.2))

/-- Fixed prefix of the Job.findAll query text, up to the spot where
sqlWhereCondStr is interpolated. -/
def jobSelectFrom : String :=
  "\n      SELECT id, title, salary, equity, company_handle\n      FROM jobs\n      "

/-- Fixed tail of the Job.findAll query text: the ORDER BY clause. -/
def jobOrderBy : String :=
  "\n      ORDER BY id"

/-- Embedding of the Job.findAll template literal (models/job.js lines 166
to 170) as a function of its interpolated WHERE string. -/
def jobQueryTemplate (sqlWhereCondStr : String) : String :=
  jobSelectFrom ++ sqlWhereCondStr ++ jobOrderBy

/-- Embedding of the query assembly of Job.findAll: the returned pair is the
query text and the values array handed to db.query (which is initialized
empty outside the filter block and thus empty when no filters are given). -/
def jobFindAll (filters : List (String × JsVal)) : String × List JsVal :=
  if filters.isEmpty then (jobQueryTemplate "", [])
  else
    (jobQueryTemplate
       ("WHERE " ++ String.intercalate " AND " (jobBuildConds filters).1),
     (jobBuildConds filters).2)

/-- The jsToSql translation table hardcoded in Company.update. -/
def companyJsToSql : List (String × String) :=
  [("numEmployees", "num_employees"), ("logoUrl", "logo_url")]

/-- The jsToSql translation table hardcoded in User.update. -/
def userJsToSql : List (String × String) :=
  [("firstName", "first_name"), ("lastName", "last_name"), ("isAdmin", "is_admin")]

/-- Fixed prefix of the Company.update query text, up to setCols. -/
def companyUpdateSqlPre : String :=
  "UPDATE companies \n                      SET "

/-- Fixed middle of the Company.update query text, between setCols and the
interpolated handleVarIdx placeholder. -/
def companyUpdateSqlMid : String :=
  " \n                      WHERE handle = "

/-- Fixed tail of the Company.update query text: the RETURNING clause. -/
def companyUpdateSqlSuffix : String :=
  " \n                      RETURNING handle, \n                                name, "
    ++ "\n                                description, "
    ++ "\n                                num_employees AS \"numEmployees\", "
    ++ "\n                                logo_url AS \"logoUrl\""

/-- Embedding of the Company.update template literal as a function of its
two interpolated variables. -/
def companyUpdateSql (setCols handleVarIdx : String) : String :=
  companyUpdateSqlPre ++ setCols ++ companyUpdateSqlMid ++ handleVarIdx
    ++ companyUpdateSqlSuffix

/-- Embedding of the statement assembly of Company.update (models/company.js
lines 204 to 226): the SET fragment and values come from sqlForPartialUpdate,
the handle placeholder index is values.length + 1, and db.query receives the
values with the handle appended last. -/
def companyUpdateStmt (handle : String) (data : List (String × JsVal)) :
    Except JError (String × List JsVal) :=
  match sqlForPartialUpdate data companyJsToSql with
  | .error e => .error e
  | .ok (setCols, values) =>
      let handleVarIdx := "$" ++ toString (values.length + 1)
      .ok (companyUpdateSql setCols handleVarIdx, values ++ [JsVal.str handle])

/-- Fixed prefix of the User.update query text, up to setCols. -/
def userUpdateSqlPre : String :=
  "UPDATE users \n                      SET "

/-- Fixed middle of the User.update query text, between setCols and the
interpolated usernameVarIdx placeholder. -/
def userUpdateSqlMid : String :=
  " \n                      WHERE username = "

/-- Fixed tail of the User.update query text: the RETURNING clause. -/
def userUpdateSqlSuffix : String :=
  " \n                      RETURNING username,\n                                first_name AS \"firstName\","
    ++ "\n                                last_name AS \"lastName\","
    ++ "\n                                email,"
    ++ "\n                                is_admin AS \"isAdmin\""

/-- Embedding of the User.update template literal as a function of its two
interpolated variables. -/
def userUpdateSql (setCols usernameVarIdx : String) : String :=
  userUpdateSqlPre ++ setCols ++ userUpdateSqlMid ++ usernameVarIdx ++ userUpdateSqlSuffix

/-- Embedding of the statement assembly of User.update (models/user.js lines
215 to 238), after the external password-hashing step, which only replaces
the password value and does not change the shape of the update object. -/
def userUpdateStmt (username : String) (data : List (String × JsVal)) :
    Except JError (String × List JsVal) :=
  match sqlForPartialUpdate data userJsToSql with
  | .error e => .error e
  | .ok (setCols, values) =>
      let usernameVarIdx := "$" ++ toString (values.length + 1)
      .ok (userUpdateSql setCols usernameVarIdx, values ++ [JsVal.str username])

/-- Embedding of the row handling shared by the update and remove methods:
result.rows[0] is taken and NotFoundError is thrown when it is absent. -/
def updateRowsResult {α : Type} (notFoundMsg : String) (rows : List α) :
    Except JError α :=
  match rows with
  | [] => .error (.notFound notFoundMsg)
  | row :: _ => .ok row

/-- Embedding of the full Company.update control flow, with the row sequence
returned by the storage engine for the assembled statement supplied as the
dbRows argument. -/
def companyUpdate {α : Type} (handle : String) (data : List (String × JsVal))
    (dbRows : List α) : Except JError α :=
  match companyUpdateStmt handle data with
  | .error e => .error e
  | .ok _ => updateRowsResult ("No company: " ++ handle) dbRows

/-- Embedding of the full User.update control flow, with the row sequence
returned by the storage engine supplied as the dbRows argument. -/
def userUpdate {α : Type} (username : String) (data : List (String × JsVal))
    (dbRows : List α) : Except JError α :=
  match userUpdateStmt username data with
  | .error e => .error e
  | .ok _ => updateRowsResult ("No user: " ++ username) dbRows

/-- A flat row of the User.findAll join of users with applications: the user
columns plus the nullable job_id column of the LEFT JOIN. -/
structure UserRow where
  username : String
  firstName : String
  lastName : String
  email : String
  isAdmin : Bool
  job_id : Option Int
deriving DecidableEq

/-- An aggregated user entity as pushed to allUsers by User.findAll. -/
structure UserEntity where
  username : String
  firstName : String
  lastName : String
  email : String
  isAdmin : Bool
  jobs : List (Option Int)
deriving DecidableEq

/-- Embedding of the forEach aggregation of User.findAll (models/user.js
lines 127 to 147): every row pushes its job_id onto the jobs accumulator
unconditionally; when there is no next row or the next row has a different
username, an entity holding a copy of the accumulator is emitted and the
accumulator is reset to empty. -/
def userAggregate : List UserRow → List (Option Int) → List UserEntity
  | [], _ => []
  | [currObj], jobs =>
      [⟨currObj.username, currObj.firstName, currObj.lastName, currObj.email,
        currObj.isAdmin, jobs ++ [currObj.job_id]⟩]
  | currObj :: nextObj :: rest, jobs =>
      let jobs := jobs ++ [currObj.job_id]
      if currObj.username ≠ nextObj.username then
        ⟨currObj.username, currObj.firstName, currObj.lastName, currObj.email,
         currObj.isAdmin, jobs⟩ :: userAggregate (nextObj :: rest) []
      else
        userAggregate (nextObj :: rest) jobs

/-- Embedding of the result reshaping of User.findAll: the aggregation is run
on the ordered join rows with an initially empty jobs accumulator. -/
def userFindAllAggregate (rows : List UserRow) : List UserEntity :=
  userAggregate rows []

/-- Fixed prefix of the User.findAll query text, through the LEFT JOIN. -/
def userSelectFrom : String :=
  "SELECT\n          users.username,\n          first_name AS \"firstName\","
    ++ "\n          last_name AS \"lastName\",\n          email,"
    ++ "\n          is_admin AS \"isAdmin\",\n          job_id"
    ++ "\n    FROM users\n    LEFT JOIN applications"
    ++ "\n    ON users.username = applications.username\n   "

/-- Fixed tail of the User.findAll query text: the ORDER BY clause. -/
def userOrderBy : String :=
  "ORDER BY users.username"

/-- Embedding of the User.findAll query text (models/user.js lines 105 to
117), which takes no filters and no parameters. -/
def userFindAllQuery : String :=
  userSelectFrom ++ userOrderBy

/-- Positionally indexed form of the Company.findAll condition list: the
entry at offset i from the start of the remaining keys uses placeholder
index n + i + 1. -/
def companyCondsFrom : Nat → List String → List String
  | _, [] => []
  | n, k :: rest => (companyCondFor n k).toList ++ companyCondsFrom (n + 1) rest

theorem companyBuildConds_enumFrom (n : Nat) (ks : List String) :
    (List.enumFrom n ks).filterMap (fun p => companyCondFor p.1 p.2)
      = companyCondsFrom n ks := by
  induction ks generalizing n with
  | nil => rfl
  | cons k rest ih =>
      cases h : companyCondFor n k <;>
        simp [List.enumFrom, List.filterMap_cons, companyCondsFrom, h, ih (n + 1)]

theorem companyBuildConds_eq (ks : List String) :
    companyBuildConds ks = companyCondsFrom 0 ks := by
  simpa [companyBuildConds, List.enum] using companyBuildConds_enumFrom 0 ks

theorem companyCondsFrom_append (n : Nat) (l1 l2 : List String) :
    companyCondsFrom n (l1 ++ l2)
      = companyCondsFrom n l1 ++ companyCondsFrom (n + l1.length) l2 := by
  induction l1 generalizing n with
  | nil => simp [companyCondsFrom]
  | cons k rest ih =>
      have harith : n + 1 + rest.length = n + (rest.length + 1) := by omega
      simp [companyCondsFrom, ih (n + 1), harith]

/-- Positionally indexed form of the Job.findAll loop steps when every entry
reads its own value: the entry at offset i from the start of the remaining
list is processed with index n + i. -/
def jobStepsFrom : Nat → List (String × JsVal) → List (Option String × Option JsVal)
  | _, [] => []
  | n, (k, v) :: rest => jobCondFor n k v :: jobStepsFrom (n + 1) rest

theorem jobStepsFrom_length (n : Nat) (fs : List (String × JsVal)) :
    (jobStepsFrom n fs).length = fs.length := by
  induction fs generalizing n with
  | nil => rfl
  | cons p rest ih =>
      cases p with
      | mk k v => simp [jobStepsFrom, ih (n + 1)]

theorem jobStepsFrom_getElem? (n : Nat) (fs : List (String × JsVal)) (i : Nat) :
    (jobStepsFrom n fs)[i]?
      = (fs[i]?).map (fun p => jobCondFor (n + i) p.1 p.2) := by
  induction fs generalizing n i with
  | nil => simp [jobStepsFrom]
  | cons p rest ih =>
      cases p with
      | mk k v =>
          cases i with
          | zero => simp [jobStepsFrom]
          | succ j =>
              have harith : n + (j + 1) = n + 1 + j := by omega
              simp [jobStepsFrom, ih (n + 1) j, harith]

theorem jobStepsFrom_append (n : Nat) (l1 l2 : List (String × JsVal)) :
    jobStepsFrom n (l1 ++ l2)
      = jobStepsFrom n l1 ++ jobStepsFrom (n + l1.length) l2 := by
  induction l1 generalizing n with
  | nil => simp [jobStepsFrom]
  | cons p rest ih =>
      cases p with
      | mk k v =>
          have harith : n + 1 + rest.length = n + (rest.length + 1) := by omega
          simp [jobStepsFrom, ih (n + 1), harith]

/-- With pairwise distinct keys, the indexOf lookup of the Job.findAll loop
reads each entry at its own position, so the loop computes exactly the
positionally indexed steps. -/
theorem jobBuildConds_eq_steps (filters : List (String × JsVal))
    (hnd : (filters.map (·.1)).Nodup) :
    jobBuildConds filters
      = ((jobStepsFrom 0 filters).filterMap (·.1),
         (jobStepsFrom 0 filters).filterMap (·.2)) := by
  have hsteps :
      (filters.map (·.1)).enum.map
        (fun p => jobCondFor p.1 p.2
          ((filters.map (·.2)).getD ((filters.map (·.1)).indexOf p.2) JsVal.null))
      = jobStepsFrom 0 filters := by
    apply List.ext_getElem
    · simp [jobStepsFrom_length]
    · intro i h1 h2
      have hi : i < filters.length := by
        simpa [jobStepsFrom_length] using h2
      have hkeys : i < (filters.map (·.1)).length := by simpa using hi
      have hvals : i < (filters.map (·.2)).length := by simpa using hi
      have hidx :
          (filters.map (·.1)).indexOf ((filters.map (·.1))[i]) = i :=
        List.indexOf_getElem hnd i hkeys
      have hstep :
          (jobStepsFrom 0 filters)[i]
            = jobCondFor i (filters[i]).1 (filters[i]).2 := by
        have h0 := jobStepsFrom_getElem? 0 filters i
        rw [List.getElem?_eq_getElem h2, List.getElem?_eq_getElem hi] at h0
        simpa using h0
      rw [List.getElem_map, List.getElem_enum, hstep]
      dsimp only
      rw [List.getElem_map] at hidx
      rw [List.getElem_map, hidx, List.getD_eq_getElem?_getD,
        List.getElem?_eq_getElem hvals]
      simp
  simp only [jobBuildConds, hsteps]

theorem sqlForPartialUpdate_ok (data : List (String × JsVal))
    (t : List (String × String)) (h : data ≠ []) :
    sqlForPartialUpdate data t
      = Except.ok (String.intercalate ", "
          (sqlForPartialUpdateCols (data.map (·.1)) t), data.map (·.2)) := by
  have hlen : ¬ ((data.map (·.1)).length = 0) := by
    simpa [List.length_eq_zero] using h
  simp [sqlForPartialUpdate, hlen, h]

theorem sqlForPartialUpdateCols_getElem? (keys : List String)
    (t : List (String × String)) (i : Nat) :
    (sqlForPartialUpdateCols keys t)[i]?
      = (keys[i]?).map
          (fun k => "\"" ++ resolveCol t k ++ "\"=$" ++ toString (i + 1)) := by
  simp only [sqlForPartialUpdateCols, List.getElem?_map, List.getElem?_enum,
    Option.map_map]
  cases keys[i]? <;> simp

theorem lookupStr_cons (p : String × String) (l : List (String × String))
    (k : String) :
    lookupStr (p :: l) k = if p.1 = k then some p.2 else lookupStr l k := by
  by_cases h : p.1 = k <;> simp [lookupStr, List.find?_cons, h]

theorem lookupStr_filter_self (t : List (String × String)) (name : String) :
    lookupStr (t.filter (fun p => p.1 != name)) name = none := by
  induction t with
  | nil => rfl
  | cons p rest ih =>
      by_cases hp : p.1 = name
      · have hf : (p.1 != name) = false := by simp [hp]
        simp [List.filter_cons, hf, ih]
      · have ht : (p.1 != name) = true := by simp [hp]
        simp [List.filter_cons, ht, lookupStr_cons, hp, ih]

theorem lookupStr_filter_ne (t : List (String × String)) (name cn : String)
    (h : cn ≠ name) :
    lookupStr (t.filter (fun p => p.1 != name)) cn = lookupStr t cn := by
  induction t with
  | nil => rfl
  | cons p rest ih =>
      by_cases hp : p.1 = name
      · have hf : (p.1 != name) = false := by simp [hp]
        have hpc : p.1 ≠ cn := by
          rw [hp]; exact fun e => h e.symm
        simp [List.filter_cons, hf, lookupStr_cons, hpc, ih]
      · have ht : (p.1 != name) = true := by simp [hp]
        simp [List.filter_cons, ht, lookupStr_cons, ih]

/-- Claim C1: the claim states that the jobs filter builder assigns
placeholder numbers by the count of parameters actually emitted so far, so
that the spec with titleLike, a truthy hasEquity and minSalary yields the
contiguous placeholders 1 and 2.  The code instead numbers placeholders by
the position of the entry in the filter spec: on that very input it emits
the placeholders 1 and 3 while supplying only two parameter values, so the
minSalary placeholder references a parameter that does not exist. -/
theorem c1_jobs_placeholder_gap :
    jobFindAll
        [("titleLike", JsVal.str "x"), ("hasEquity", JsVal.bool true),
         ("minSalary", JsVal.num 5)]
      = (jobQueryTemplate "WHERE title ILIKE $1 AND equity>\x270\x27 AND salary>=$3",
         [JsVal.str "x", JsVal.num 5])
    ∧ placeholders "WHERE title ILIKE $1 AND equity>\x270\x27 AND salary>=$3"
      = [1, 3] := by
  constructor
  · rfl
  · decide

/-- Claim C2: the claim states that every fragment produced by the builders
has as many positional placeholders as accompanying parameters, with
placeholder i corresponding to the parameter at position i.  The jobs filter
builder violates the correspondence: with a truthy hasEquity followed by
minSalary it emits the placeholder 2 while supplying a single-element
parameter list, so the placeholder references no parameter. -/
theorem c2_jobs_placeholder_misaligned :
    jobFindAll [("hasEquity", JsVal.bool true), ("minSalary", JsVal.num 5)]
      = (jobQueryTemplate "WHERE equity>\x270\x27 AND salary>=$2", [JsVal.num 5])
    ∧ placeholders "WHERE equity>\x270\x27 AND salary>=$2" = [2]
    ∧ [JsVal.num 5].length = 1 := by
  refine ⟨by rfl, by decide, by decide⟩

/-- Claim C3: the claim states that the row aggregator appends a row's child
value only when it is non-null, so the rows (a, 1), (a, 2), (b, null) yield
the jobs lists [1, 2] and [].  The code pushes job_id unconditionally, so
the user with the null join row receives the jobs list [null] instead of the
empty list. -/
theorem c3_aggregator_keeps_null :
    userFindAllAggregate
        [⟨"a", "fa", "la", "ea", false, some 1⟩,
         ⟨"a", "fa", "la", "ea", false, some 2⟩,
         ⟨"b", "fb", "lb", "eb", false, none⟩]
      = [⟨"a", "fa", "la", "ea", false, [some 1, some 2]⟩,
         ⟨"b", "fb", "lb", "eb", false, [none]⟩]
    ∧ ([Option.none (α := Int)] ≠ []) := by
  refine ⟨by decide, by decide⟩

/-- Claim C5: calling the partial-update builder with an update mapping that
has zero entries fails with the client-class empty-input error of the code,
BadRequestError with message No data, and never returns a SET fragment. -/
theorem c5_empty_update_rejected (jsToSql : List (String × String)) :
    sqlForPartialUpdate [] jsToSql = Except.error (JError.badRequest "No data") :=
  rfl

/-- Claim C4 counterexample: the claim states that a filter spec holding a
key outside the enumerated set makes the builder fail with an
InvariantViolation and never yields a fragment in which the predicate is
silently dropped.  The companies builder instead returns normally on the
unknown key bogus: the query text does not mention the key at all (its
predicate is dropped, leaving a bare WHERE), while its value still occupies
a parameter slot. -/
theorem c4_unknown_key_silently_dropped :
    companyFindAll [("bogus", JsVal.num 1)]
      = (companyQueryTemplate "" "WHERE ", [JsVal.num 1])
    ∧ strHasSub (companyQueryTemplate "" "WHERE ") "bogus" = false := by
  refine ⟨by rfl, by decide⟩

/-- Claim C6 counterexample: the claim states that the resolved column is
the translation value whenever the name is present in the table.  With a
translation entry mapping the name to the empty string, the code uses the
name verbatim rather than the present (empty) translation value. -/
theorem c6_translation_presence_refuted :
    sqlForPartialUpdate [("a", JsVal.num 1)] [("a", "")]
      = Except.ok ("\"a\"=$1", [JsVal.num 1])
    ∧ "\"a\"=$1" ≠ "\"\"=$1" := by
  refine ⟨by rfl, by decide⟩

/-- Claim C9 counterexample: the claim states that the assembled list query
is a fixed SELECT FROM projection followed by the filter fragment and the
ORDER BY clause.  For companies the projection is not fixed: with a
minEmployees filter the query differs from the fixed no-filter projection
composed with the same WHERE fragment, because the projection itself gains
the num_employees column. -/
theorem c9_projection_not_fixed :
    (companyFindAll [("minEmployees", JsVal.num 1)]).1
      = companyQueryTemplate "num_employees AS \"numEmployees\"," "WHERE num_employees>=$1"
    ∧ (companyFindAll []).1 = companyQueryTemplate "" ""
    ∧ companyQueryTemplate "num_employees AS \"numEmployees\"," "WHERE num_employees>=$1"
      ≠ companyQueryTemplate "" "WHERE num_employees>=$1" := by
  refine ⟨by rfl, by rfl, by decide⟩

/-- Claim C6 amended: for every non-empty update mapping and translation
table, the builder iterates entries in insertion order, emitting for the
entry at 1-based position i the assignment of its resolved column to
placeholder i, where the resolved column is the translation value when that
value is present and truthy (non-empty) and the external name verbatim
otherwise, and placing the entry value at position i of the parameter list;
the concrete example of the claim holds as stated. -/
theorem c6_update_builder_order_and_translation (data : List (String × JsVal))
    (t : List (String × String)) (h : data ≠ []) :
    (∃ cols : List String,
      sqlForPartialUpdate data t
        = Except.ok (String.intercalate ", " cols, data.map (·.2))
      ∧ cols.length = data.length
      ∧ ∀ i, i < data.length →
          cols.getD i "" = "\"" ++ resolveCol t ((data.map (·.1)).getD i "")
            ++ "\"=$" ++ toString (i + 1))
    ∧ sqlForPartialUpdate [("firstName", JsVal.str "A"), ("email", JsVal.str "b")]
        [("firstName", "first_name")]
      = Except.ok ("\"first_name\"=$1, \"email\"=$2",
                   [JsVal.str "A", JsVal.str "b"]) := by
  refine ⟨⟨sqlForPartialUpdateCols (data.map (·.1)) t,
    sqlForPartialUpdate_ok data t h, by simp [sqlForPartialUpdateCols], ?_⟩, by rfl⟩
  intro i hi
  have hk : i < (data.map (·.1)).length := by simpa using hi
  rw [List.getD_eq_getElem?_getD, sqlForPartialUpdateCols_getElem?,
    List.getElem?_eq_getElem hk, List.getD_eq_getElem?_getD,
    List.getElem?_eq_getElem hk]
  simp

/-- Witness for claim C6: the amended theorem applied to the concrete input
of the claim, an update of firstName and email with the user translation
table restricted to firstName. -/
theorem c6_update_builder_order_and_translation_witness :
    ([("firstName", JsVal.str "A"), ("email", JsVal.str "b")]
        ≠ ([] : List (String × JsVal)))
    ∧ ((∃ cols : List String,
      sqlForPartialUpdate [("firstName", JsVal.str "A"), ("email", JsVal.str "b")]
          [("firstName", "first_name")]
        = Except.ok (String.intercalate ", " cols,
            [("firstName", JsVal.str "A"), ("email", JsVal.str "b")].map (·.2))
      ∧ cols.length = [("firstName", JsVal.str "A"), ("email", JsVal.str "b")].length
      ∧ ∀ i, i < [("firstName", JsVal.str "A"), ("email", JsVal.str "b")].length →
          cols.getD i "" = "\"" ++ resolveCol [("firstName", "first_name")]
              (([("firstName", JsVal.str "A"), ("email", JsVal.str "b")].map (·.1)).getD i "")
            ++ "\"=$" ++ toString (i + 1))
    ∧ sqlForPartialUpdate [("firstName", JsVal.str "A"), ("email", JsVal.str "b")]
        [("firstName", "first_name")]
      = Except.ok ("\"first_name\"=$1, \"email\"=$2",
                   [JsVal.str "A", JsVal.str "b"])) :=
  ⟨by decide,
   c6_update_builder_order_and_translation _ [("firstName", "first_name")] (by decide)⟩

/-- Claim C7: for every update-by-key statement assembled from a non-empty
sparse update, by Company.update and User.update, the key value is appended
after all SET parameters and its placeholder index is the SET parameter
count plus one, so the key is the last placeholder and the last parameter;
the statement text carries a RETURNING clause; and when the storage engine
returns zero rows the operation yields NotFoundError, while a returned row
is passed back to the caller. -/
theorem c7_update_key_is_last (handle username : String)
    (data : List (String × JsVal)) (h : data ≠ []) :
    (∃ setCols values,
      sqlForPartialUpdate data companyJsToSql = Except.ok (setCols, values)
      ∧ companyUpdateStmt handle data
          = Except.ok (companyUpdateSql setCols ("$" ++ toString (values.length + 1)),
                       values ++ [JsVal.str handle])
      ∧ (values ++ [JsVal.str handle]).length = values.length + 1
      ∧ (values ++ [JsVal.str handle]).getLast? = some (JsVal.str handle))
    ∧ (∃ setCols values,
      sqlForPartialUpdate data userJsToSql = Except.ok (setCols, values)
      ∧ userUpdateStmt username data
          = Except.ok (userUpdateSql setCols ("$" ++ toString (values.length + 1)),
                       values ++ [JsVal.str username])
      ∧ (values ++ [JsVal.str username]).getLast? = some (JsVal.str username))
    ∧ strHasSub companyUpdateSqlSuffix "RETURNING" = true
    ∧ strHasSub userUpdateSqlSuffix "RETURNING" = true
    ∧ companyUpdate handle data ([] : List JsVal)
        = Except.error (JError.notFound ("No company: " ++ handle))
    ∧ (∀ (row : JsVal) (rest : List JsVal),
        companyUpdate handle data (row :: rest) = Except.ok row)
    ∧ userUpdate username data ([] : List JsVal)
        = Except.error (JError.notFound ("No user: " ++ username))
    ∧ (∀ (row : JsVal) (rest : List JsVal),
        userUpdate username data (row :: rest) = Except.ok row) := by
  have hc := sqlForPartialUpdate_ok data companyJsToSql h
  have hu := sqlForPartialUpdate_ok data userJsToSql h
  have hcs : companyUpdateStmt handle data
      = Except.ok (companyUpdateSql
          (String.intercalate ", " (sqlForPartialUpdateCols (data.map (·.1)) companyJsToSql))
          ("$" ++ toString ((data.map (·.2)).length + 1)),
        (data.map (·.2)) ++ [JsVal.str handle]) := by
    simp [companyUpdateStmt, hc]
  have hus : userUpdateStmt username data
      = Except.ok (userUpdateSql
          (String.intercalate ", " (sqlForPartialUpdateCols (data.map (·.1)) userJsToSql))
          ("$" ++ toString ((data.map (·.2)).length + 1)),
        (data.map (·.2)) ++ [JsVal.str username]) := by
    simp [userUpdateStmt, hu]
  refine ⟨⟨_, _, hc, hcs, by simp, List.getLast?_concat _⟩,
    ⟨_, _, hu, hus, List.getLast?_concat _⟩,
    by decide, by decide, ?_, ?_, ?_, ?_⟩
  · simp [companyUpdate, hcs, updateRowsResult]
  · intro row rest
    simp [companyUpdate, hcs, updateRowsResult]
  · simp [userUpdate, hus, updateRowsResult]
  · intro row rest
    simp [userUpdate, hus, updateRowsResult]

/-- Witness for claim C7: the theorem applied to the concrete handle c1,
username u1 and the one-entry update mapping name to New. -/
theorem c7_update_key_is_last_witness :
    ([("name", JsVal.str "New")] ≠ ([] : List (String × JsVal)))
    ∧ ((∃ setCols values,
      sqlForPartialUpdate [("name", JsVal.str "New")] companyJsToSql
        = Except.ok (setCols, values)
      ∧ companyUpdateStmt "c1" [("name", JsVal.str "New")]
          = Except.ok (companyUpdateSql setCols ("$" ++ toString (values.length + 1)),
                       values ++ [JsVal.str "c1"])
      ∧ (values ++ [JsVal.str "c1"]).length = values.length + 1
      ∧ (values ++ [JsVal.str "c1"]).getLast? = some (JsVal.str "c1"))
    ∧ (∃ setCols values,
      sqlForPartialUpdate [("name", JsVal.str "New")] userJsToSql
        = Except.ok (setCols, values)
      ∧ userUpdateStmt "u1" [("name", JsVal.str "New")]
          = Except.ok (userUpdateSql setCols ("$" ++ toString (values.length + 1)),
                       values ++ [JsVal.str "u1"])
      ∧ (values ++ [JsVal.str "u1"]).getLast? = some (JsVal.str "u1"))
    ∧ strHasSub companyUpdateSqlSuffix "RETURNING" = true
    ∧ strHasSub userUpdateSqlSuffix "RETURNING" = true
    ∧ companyUpdate "c1" [("name", JsVal.str "New")] ([] : List JsVal)
        = Except.error (JError.notFound ("No company: " ++ "c1"))
    ∧ (∀ (row : JsVal) (rest : List JsVal),
        companyUpdate "c1" [("name", JsVal.str "New")] (row :: rest) = Except.ok row)
    ∧ userUpdate "u1" [("name", JsVal.str "New")] ([] : List JsVal)
        = Except.error (JError.notFound ("No user: " ++ "u1"))
    ∧ (∀ (row : JsVal) (rest : List JsVal),
        userUpdate "u1" [("name", JsVal.str "New")] (row :: rest) = Except.ok row)) :=
  ⟨by decide, c7_update_key_is_last "c1" "u1" [("name", JsVal.str "New")] (by decide)⟩

/-- Claim C8: for every jobs filter spec with pairwise distinct keys that
contains the hasEquity key, a truthy value contributes exactly the literal
equity predicate, which holds no placeholder, and contributes nothing to the
parameter list, while a falsy value contributes neither a predicate nor a
parameter; the surrounding entries are processed unchanged at their own
positions. -/
theorem c8_hasEquity_gates_presence (fs1 fs2 : List (String × JsVal)) (v : JsVal)
    (hnd : ((fs1 ++ ("hasEquity", v) :: fs2).map (·.1)).Nodup) :
    jobBuildConds (fs1 ++ ("hasEquity", v) :: fs2)
      = ((jobStepsFrom 0 fs1).filterMap (·.1)
          ++ (if v.truthy then ["equity>\x270\x27"] else [])
          ++ (jobStepsFrom (fs1.length + 1) fs2).filterMap (·.1),
         (jobStepsFrom 0 fs1).filterMap (·.2)
          ++ (jobStepsFrom (fs1.length + 1) fs2).filterMap (·.2))
    ∧ placeholders "equity>\x270\x27" = [] := by
  constructor
  · rw [jobBuildConds_eq_steps _ hnd, jobStepsFrom_append]
    have hstep : jobCondFor fs1.length "hasEquity" v
        = ((if v.truthy then some "equity>\x270\x27" else none), none) := by
      unfold jobCondFor
      rw [if_neg (by decide), if_neg (by decide), if_pos rfl]
    cases hv : v.truthy <;>
      simp [jobStepsFrom, hstep, hv, List.filterMap_cons, List.filterMap_append]
  · decide

/-- Witness for claim C8: the theorem applied to the spec holding titleLike,
a truthy hasEquity and minSalary, whose keys are pairwise distinct. -/
theorem c8_hasEquity_gates_presence_witness :
    ((([("titleLike", JsVal.str "x")]
        ++ ("hasEquity", JsVal.bool true) :: [("minSalary", JsVal.num 5)]).map
          (·.1)).Nodup)
    ∧ (jobBuildConds
        ([("titleLike", JsVal.str "x")]
          ++ ("hasEquity", JsVal.bool true) :: [("minSalary", JsVal.num 5)])
      = ((jobStepsFrom 0 [("titleLike", JsVal.str "x")]).filterMap (·.1)
          ++ (if (JsVal.bool true).truthy then ["equity>\x270\x27"] else [])
          ++ (jobStepsFrom ([("titleLike", JsVal.str "x")].length + 1)
                [("minSalary", JsVal.num 5)]).filterMap (·.1),
         (jobStepsFrom 0 [("titleLike", JsVal.str "x")]).filterMap (·.2)
          ++ (jobStepsFrom ([("titleLike", JsVal.str "x")].length + 1)
                [("minSalary", JsVal.num 5)]).filterMap (·.2))
      ∧ placeholders "equity>\x270\x27" = []) :=
  ⟨by decide, c8_hasEquity_gates_presence _ _ _ (by decide)⟩

/-- Claim C4 amended: for every filter spec with pairwise distinct keys that
contains a key outside the enumerated sets, neither builder fails: the
unrecognized entry contributes no predicate (it is silently dropped) while
still occupying a position that advances the placeholder numbering of later
entries, and the companies builder moreover still passes the value of the
unrecognized key in its parameter list. -/
theorem c4_amended_unknown_key_ignored (fs1 fs2 : List (String × JsVal))
    (k : String) (v : JsVal)
    (hk : k ≠ "nameLike" ∧ k ≠ "minEmployees" ∧ k ≠ "maxEmployees"
          ∧ k ≠ "titleLike" ∧ k ≠ "minSalary" ∧ k ≠ "hasEquity")
    (hnd : ((fs1 ++ (k, v) :: fs2).map (·.1)).Nodup) :
    companyBuildConds ((fs1 ++ (k, v) :: fs2).map (·.1))
      = companyCondsFrom 0 (fs1.map (·.1))
        ++ companyCondsFrom (fs1.length + 1) (fs2.map (·.1))
    ∧ (companyFindAll (fs1 ++ (k, v) :: fs2)).2 = (fs1 ++ (k, v) :: fs2).map (·.2)
    ∧ jobBuildConds (fs1 ++ (k, v) :: fs2)
      = ((jobStepsFrom 0 fs1).filterMap (·.1)
          ++ (jobStepsFrom (fs1.length + 1) fs2).filterMap (·.1),
         (jobStepsFrom 0 fs1).filterMap (·.2)
          ++ (jobStepsFrom (fs1.length + 1) fs2).filterMap (·.2)) := by
  have hkc : companyCondFor fs1.length k = none := by
    unfold companyCondFor
    rw [if_neg hk.1, if_neg hk.2.1, if_neg hk.2.2.1]
  have hkj : ∀ n, jobCondFor n k v = (none, none) := by
    intro n
    unfold jobCondFor
    rw [if_neg hk.2.2.2.1, if_neg hk.2.2.2.2.1, if_neg hk.2.2.2.2.2]
  refine ⟨?_, ?_, ?_⟩
  · rw [companyBuildConds_eq]
    have hmap : (fs1 ++ (k, v) :: fs2).map (·.1)
        = fs1.map (·.1) ++ k :: fs2.map (·.1) := by simp
    rw [hmap, companyCondsFrom_append]
    have hlen : (fs1.map (·.1)).length = fs1.length := by simp
    rw [hlen]
    simp [companyCondsFrom, hkc]
  · have hne : (fs1 ++ (k, v) :: fs2).isEmpty = false := by simp
    simp [companyFindAll, hne]
  · rw [jobBuildConds_eq_steps _ hnd, jobStepsFrom_append]
    simp [jobStepsFrom, hkj, List.filterMap_cons, List.filterMap_append]

/-- Witness for claim C4: the amended theorem applied to a spec holding
nameLike, the unknown key bogus, and maxEmployees. -/
theorem c4_amended_unknown_key_ignored_witness :
    (("bogus" ≠ "nameLike" ∧ "bogus" ≠ "minEmployees" ∧ "bogus" ≠ "maxEmployees"
        ∧ "bogus" ≠ "titleLike" ∧ "bogus" ≠ "minSalary" ∧ "bogus" ≠ "hasEquity")
      ∧ ((([("nameLike", JsVal.str "n")]
            ++ ("bogus", JsVal.num 1) :: [("maxEmployees", JsVal.num 9)]).map
              (·.1)).Nodup))
    ∧ (companyBuildConds
        (([("nameLike", JsVal.str "n")]
          ++ ("bogus", JsVal.num 1) :: [("maxEmployees", JsVal.num 9)]).map (·.1))
      = companyCondsFrom 0 ([("nameLike", JsVal.str "n")].map (·.1))
        ++ companyCondsFrom ([("nameLike", JsVal.str "n")].length + 1)
            ([("maxEmployees", JsVal.num 9)].map (·.1))
    ∧ (companyFindAll
        ([("nameLike", JsVal.str "n")]
          ++ ("bogus", JsVal.num 1) :: [("maxEmployees", JsVal.num 9)])).2
      = ([("nameLike", JsVal.str "n")]
          ++ ("bogus", JsVal.num 1) :: [("maxEmployees", JsVal.num 9)]).map (·.2)
    ∧ jobBuildConds
        ([("nameLike", JsVal.str "n")]
          ++ ("bogus", JsVal.num 1) :: [("maxEmployees", JsVal.num 9)])
      = ((jobStepsFrom 0 [("nameLike", JsVal.str "n")]).filterMap (·.1)
          ++ (jobStepsFrom ([("nameLike", JsVal.str "n")].length + 1)
                [("maxEmployees", JsVal.num 9)]).filterMap (·.1),
         (jobStepsFrom 0 [("nameLike", JsVal.str "n")]).filterMap (·.2)
          ++ (jobStepsFrom ([("nameLike", JsVal.str "n")].length + 1)
                [("maxEmployees", JsVal.num 9)]).filterMap (·.2))) :=
  ⟨⟨by decide, by decide⟩,
   c4_amended_unknown_key_ignored _ _ "bogus" (JsVal.num 1) (by decide) (by decide)⟩

/-- Claim C9 amended: every assembled list query is the entity base
projection, the filter fragment (the empty string, not WHERE, when the spec
has zero entries) and the fixed entity ORDER BY clause, by name for
companies, by id for jobs and by username for users; the jobs and users
projections are fixed, while the companies projection additionally includes
the num_employees column exactly when a nonempty spec names minEmployees or
maxEmployees. -/
theorem c9_amended_query_assembly :
    (∀ fs : List (String × JsVal),
      (jobFindAll fs).1
        = jobSelectFrom
          ++ (if fs.isEmpty then ""
             else "WHERE " ++ String.intercalate " AND " (jobBuildConds fs).1)
          ++ jobOrderBy)
    ∧ (∀ fs : List (String × JsVal),
      (companyFindAll fs).1
        = companySelectPre
          ++ (if fs.isEmpty then ""
             else if (fs.map (·.1)).contains "minEmployees"
                    || (fs.map (·.1)).contains "maxEmployees"
                  then "num_employees AS \"numEmployees\"," else "")
          ++ companySelectPost
          ++ (if fs.isEmpty then ""
             else "WHERE " ++ String.intercalate " AND "
                    (companyBuildConds (fs.map (·.1))))
          ++ companyOrderBy)
    ∧ userFindAllQuery = userSelectFrom ++ userOrderBy
    ∧ userOrderBy = "ORDER BY users.username"
    ∧ jobOrderBy = "\n      ORDER BY id"
    ∧ companyOrderBy = "\n    ORDER BY name" := by
  refine ⟨?_, ?_, rfl, rfl, rfl, rfl⟩
  · intro fs
    by_cases hfs : fs.isEmpty <;>
      simp [jobFindAll, jobQueryTemplate, hfs]
  · intro fs
    by_cases hfs : fs.isEmpty <;>
      simp [companyFindAll, companyQueryTemplate, hfs]

/-- Claim C10: the partial-update builder resolves column names by the
truthiness of the translation entry, not by key presence: a name mapped to
the empty string resolves to the name verbatim, and the whole builder output
on any update mapping is identical to its output with such entries removed
from the translation table. -/
theorem c10_falsy_translation_inert (data : List (String × JsVal))
    (t : List (String × String)) (name : String)
    (h : lookupStr t name = some "") :
    resolveCol t name = name
    ∧ sqlForPartialUpdate data t
        = sqlForPartialUpdate data (t.filter (fun p => p.1 != name)) := by
  have hres : ∀ cn, resolveCol t cn
      = resolveCol (t.filter (fun p => p.1 != name)) cn := by
    intro cn
    by_cases hcn : cn = name
    · subst hcn
      simp [resolveCol, h, lookupStr_filter_self]
    · simp only [resolveCol, lookupStr_filter_ne t name cn hcn]
  have hcols : ∀ keys : List String,
      sqlForPartialUpdateCols keys t
        = sqlForPartialUpdateCols keys (t.filter (fun p => p.1 != name)) := by
    intro keys
    unfold sqlForPartialUpdateCols
    exact List.map_congr_left (fun p _ => by rw [hres p.2])
  refine ⟨by simp [resolveCol, h], ?_⟩
  unfold sqlForPartialUpdate
  simp only [hcols]

/-- Witness for claim C10: the theorem applied to the translation table
mapping a to the empty string and the one-entry update of a. -/
theorem c10_falsy_translation_inert_witness :
    lookupStr [("a", "")] "a" = some ""
    ∧ (resolveCol [("a", "")] "a" = "a"
      ∧ sqlForPartialUpdate [("a", JsVal.num 7)] [("a", "")]
          = sqlForPartialUpdate [("a", JsVal.num 7)]
              ([("a", "")].filter (fun p => p.1 != "a"))) :=
  ⟨by decide, c10_falsy_translation_inert [("a", JsVal.num 7)] [("a", "")] "a" (by decide)⟩

/-- Witness for claim C5: the rejection of the empty update evaluated at the
user translation table. -/
theorem c5_empty_update_rejected_witness :
    sqlForPartialUpdate [] userJsToSql = Except.error (JError.badRequest "No data") :=
  c5_empty_update_rejected userJsToSql
